import Mathlib

/-!
Verification of the asyncify MQTT client adapter
(`src/utils/asyncify/mqtt/client.rs`).

The file shallowly embeds the adapter's data model and operations:
* the single-slot mailbox state machine (`AsyncState`, `NextFuture::poll`,
  `AsyncPostbox::post`), with condvar notifications and waker wakes made
  explicit as an effect list;
* the immediate-result `EnqueueFuture` and the blanket `Publish`
  implementation for `Enqueue` clients;
* the `AsyncClient` unblocking adapter (`subscribe`, `unsubscribe`,
  `publish`) over a mutex-guarded synchronous client;
* a small interleaving semantics for the producer/consumer system built
  from the mailbox, and for the lock that serializes client calls.

Machine integers (the Rust `MessageId = u32` and payload bytes `u8`) are
modelled as `Nat`; no arithmetic in this module can overflow, since the
adapter only moves these values around.
-/

namespace Asyncify

/-- Rust `core::task::Waker`, modelled as an opaque identifier: the adapter
only clones wakers, stores them, and calls `wake()` on them. -/
abbrev Waker := Nat

/-- `enum AsyncState<R, E> { None, Waiting(Waker), Received(Result<Event<R>, E>) }`
(`client.rs` lines 168-172).  The payload type of the `Received` variant,
Rust's `Result<Event<R>, E>`, is abstracted as a single type parameter `Ev`:
the mailbox never inspects it. -/
inductive AsyncState (Ev : Type) where
  | nothing : AsyncState Ev
  | waiting (w : Waker) : AsyncState Ev
  | received (r : Ev) : AsyncState Ev
  deriving DecidableEq, Repr

/-- `AsyncState::new()` (`client.rs` lines 174-178): returns `Self::None`. -/
def AsyncState.new {Ev : Type} : AsyncState Ev := AsyncState.nothing

/-- `impl Default for AsyncState` (`client.rs` lines 180-184): delegates to
`Self::new()`. -/
def AsyncState.defaultState {Ev : Type} : AsyncState Ev := AsyncState.new

/-- The mailbox slot guarded by the `ConnectionState` mutex:
`Option<AsyncState<R, E>>`.  The outer `none` is the closed marker set when
the connection handle is dropped. -/
abbrev Slot (Ev : Type) := Option (AsyncState Ev)

/-- Synchronization effects a mailbox operation performs, in program order:
`Condvar::notify_all()` calls and `Waker::wake()` calls. -/
inductive Effect where
  | notifyAll : Effect
  | wake (w : Waker) : Effect
  deriving DecidableEq, Repr

/-- `core::task::Poll`. -/
inductive Poll (α : Type) where
  | ready (a : α) : Poll α
  | pending : Poll α
  deriving DecidableEq, Repr

/-- One poll of `NextFuture` (`client.rs` lines 200-222), run with the
mailbox lock held.  Input: the slot contents and the current context's
waker; output: the slot contents on exit, the effects performed, and the
poll result.

Mirrors the source: if the outer option is `Some`, the inner state is
`mem::replace`d with `AsyncState::None`; a pulled `Received(event)` notifies
the condvar and resolves to `Ready(Some(event))`; any other pulled state is
overwritten with `Waiting(cx.waker().clone())`, the condvar is notified and
the poll returns `Pending`.  If the outer option is `None` (closed), the
poll returns `Ready(None)` with no effect. -/
def NextFuture.poll {Ev : Type} (slot : Slot Ev) (waker : Waker) :
    Slot Ev × List Effect × Poll (Option Ev) :=
  match slot with
  | some st =>
    match st with
    | AsyncState.received r =>
      (some AsyncState.nothing, [Effect.notifyAll], Poll.ready (some r))
    | _ =>
      (some (AsyncState.waiting waker), [Effect.notifyAll], Poll.pending)
  | none => (none, [], Poll.ready none)

/-- Outcome of one iteration of the lock-held loop in `AsyncPostbox::post`
plus, on `break`, the store that follows the loop. -/
inductive PostStep (Ev : Type) where
  | closed : PostStep Ev
  | wait : PostStep Ev
  | store (slot : Slot Ev) (effects : List Effect) : PostStep Ev
  deriving DecidableEq, Repr

/-- One observation of the slot by `AsyncPostbox::post` (`client.rs` lines
239-257), run with the mailbox lock held.

Mirrors the loop body: `state.is_none()` returns (the event is discarded,
`closed`); `Some(AsyncState::Received(_))` waits on the condvar (`wait`,
slot unchanged); otherwise the loop breaks and
`mem::replace(&mut *state, Some(AsyncState::Received(event)))` stores the
event, waking the pulled waker when the prior state was `Waiting`.  No
condvar notification is performed anywhere in `post`. -/
def AsyncPostbox.postStep {Ev : Type} (slot : Slot Ev) (event : Ev) :
    PostStep Ev :=
  match slot with
  | none => PostStep.closed
  | some (AsyncState.received _) => PostStep.wait
  | some (AsyncState.waiting w) =>
    PostStep.store (some (AsyncState.received event)) [Effect.wake w]
  | some AsyncState.nothing =>
    PostStep.store (some (AsyncState.received event)) []

/-- The effects performed by a `postStep` (empty unless it stores). -/
def postStepEffects {Ev : Type} (slot : Slot Ev) (event : Ev) : List Effect :=
  match AsyncPostbox.postStep slot event with
  | PostStep.store _ effs => effs
  | _ => []

/-- The slot contents after iterating `NextFuture.poll` `n` times with
waker `w`, starting from `slot`. -/
def pollIterSlot {Ev : Type} (slot : Slot Ev) (w : Waker) : Nat → Slot Ev
  | 0 => slot
  | n + 1 => (NextFuture.poll (pollIterSlot slot w n) w).1

/-! ### The client side: immediate-result future and unblocking adapter -/

/-- Rust `MessageId = u32`, modelled as `Nat`: the adapter only moves
message ids around, so no overflow arithmetic arises. -/
abbrev MessageId := Nat

/-- Rust `Result<T, E>`. -/
inductive RustResult (T E : Type) where
  | ok (t : T) : RustResult T E
  | err (e : E) : RustResult T E
  deriving DecidableEq, Repr

/-- Modelled from the spec: `QoS` (defined in the MQTT client module, not
under `src/`) is an opaque message-delivery guarantee level; the adapter
only passes it through. -/
inductive QoS where
  | atMostOnce : QoS
  | atLeastOnce : QoS
  | exactlyOnce : QoS
  deriving DecidableEq, Repr

/-- `alloc::borrow::Cow`: borrowed or owned data.  `into_owned` yields the
owned value (cloning a borrowed one). -/
inductive Cow (α : Type) where
  | borrowed (a : α) : Cow α
  | owned (a : α) : Cow α
  deriving DecidableEq, Repr

def Cow.intoOwned {α : Type} : Cow α → α
  | Cow.borrowed a => a
  | Cow.owned a => a

/-- `struct EnqueueFuture<E>(Result<MessageId, E>)` (`client.rs` line 18):
an already-computed result wrapped as a future. -/
structure EnqueueFuture (E : Type) where
  result : RustResult MessageId E
  deriving DecidableEq, Repr

/-- One poll of `EnqueueFuture` (`client.rs` lines 26-31): returns
`Ready(Ok(*message_id))` or `Ready(Err(err.clone()))`; the stored result is
only read, never modified, so the future after the poll is returned
unchanged.  `cl` is the `E: Clone` implementation. -/
def EnqueueFuture.poll {E : Type} (cl : E → E) (f : EnqueueFuture E) :
    EnqueueFuture E × Poll (RustResult MessageId E) :=
  match f.result with
  | RustResult.ok id => (f, Poll.ready (RustResult.ok id))
  | RustResult.err e => (f, Poll.ready (RustResult.err (cl e)))

/-- An `Enqueue` client (`crate::mqtt::client::Enqueue`): its non-blocking
`enqueue` computes a `Result<MessageId, E>` synchronously from the passed
arguments. -/
structure EnqueueClient (E : Type) where
  enqueue : Cow String → QoS → Bool → Cow (List Nat) → RustResult MessageId E

/-- The blanket `impl Publish for E where E: Enqueue` (`client.rs` lines
34-57): `publish` wraps the synchronous `enqueue` result in an
`EnqueueFuture`. -/
def Enqueue.publish {E : Type} (client : EnqueueClient E) (topic : Cow String)
    (qos : QoS) (retain : Bool) (payload : Cow (List Nat)) :
    EnqueueFuture E :=
  ⟨client.enqueue topic qos retain payload⟩

/-- A synchronous client call, as observed by the underlying client. -/
inductive ClientCall where
  | subscribeCall (topic : String) (qos : QoS) : ClientCall
  | unsubscribeCall (topic : String) : ClientCall
  | publishCall (topic : String) (qos : QoS) (retain : Bool)
      (payload : List Nat) : ClientCall
  deriving DecidableEq, Repr

/-- The underlying synchronous client, modelled as a deterministic
responder from a call to its `Result<MessageId, E>`. -/
structure SyncClient (E : Type) where
  respond : ClientCall → RustResult MessageId E

/-- The mutex-guarded shared client (`Arc<M>` with `M: Mutex<Data = P>`):
the synchronous client together with the ordered log of invocations that
have run on it under the lock. -/
structure SharedClient (E : Type) where
  client : SyncClient E
  log : List ClientCall

/-- Modelled from the spec: `Unblocker::unblock(closure)` (the `unblocker`
module is not under `src/`) runs the closure outside the calling context
and returns a future resolving to exactly the closure's result. -/
def Unblocker.unblock {α : Type} (f : Unit → α) : α := f ()

/-- `client.lock().<call>`: acquire the lock, run the blocking call on the
underlying client, append it to the invocation log, return its result. -/
def SharedClient.run {E : Type} (s : SharedClient E) (call : ClientCall) :
    SharedClient E × RustResult MessageId E :=
  (⟨s.client, s.log ++ [call]⟩, s.client.respond call)

/-- `AsyncClient::subscribe` (`client.rs` lines 105-113): converts the
borrowed topic into an owned `String`, clones the `Arc` to the shared
client, and schedules `client.lock().subscribe(&topic, qos)` on the
Unblocker.  The embedding returns the shared client after the scheduled
closure ran, paired with the value the returned future resolves to. -/
def AsyncClient.subscribe {E : Type} (s : SharedClient E) (topic : Cow String)
    (qos : QoS) : SharedClient E × RustResult MessageId E :=
  let t : String := topic.intoOwned
  Unblocker.unblock (fun _ => s.run (ClientCall.subscribeCall t qos))

/-- `AsyncClient::unsubscribe` (`client.rs` lines 115-123): same shape as
`subscribe`. -/
def AsyncClient.unsubscribe {E : Type} (s : SharedClient E)
    (topic : Cow String) : SharedClient E × RustResult MessageId E :=
  let t : String := topic.intoOwned
  Unblocker.unblock (fun _ => s.run (ClientCall.unsubscribeCall t))

/-- `AsyncClient::publish` (`client.rs` lines 139-156): converts the
borrowed `topic` into an owned `String` and the borrowed `payload` into an
owned `Vec<u8>`, clones the `Arc`, and schedules
`client.lock().publish(&topic, qos, retain, &payload)` on the Unblocker. -/
def AsyncClient.publish {E : Type} (s : SharedClient E) (topic : Cow String)
    (qos : QoS) (retain : Bool) (payload : Cow (List Nat)) :
    SharedClient E × RustResult MessageId E :=
  let t : String := topic.intoOwned
  let p : List Nat := payload.intoOwned
  Unblocker.unblock (fun _ => s.run (ClientCall.publishCall t qos retain p))

/-- `AsyncClient(Arc<M>, U)` as a handle: `shared` is the identity of the
`Arc`'d mutex-guarded client, `unblockerId` the unblocker.  `Clone for
AsyncClient` (`client.rs` lines 78-86) clones the `Arc` — the same shared
object — and the unblocker. -/
structure AsyncClientHandle where
  shared : Nat
  unblockerId : Nat
  deriving DecidableEq, Repr

def AsyncClientHandle.clone (c : AsyncClientHandle) : AsyncClientHandle :=
  ⟨c.shared, c.unblockerId⟩

/-! ### Serialization of concurrent calls by the shared mutex

Modelled from the spec: the Mutex family (`crate::mutex`, not under `src/`)
provides `lock() -> exclusive guard`; a blocking operation runs only while
its task holds the lock, and the guard is released when the closure
returns.  Each task is a scheduled closure from one clone of the
`AsyncClient`; all clones share the one lock. -/

/-- Phase of one scheduled closure: not yet holding the lock, currently
running its blocking call on the underlying client (lock held), or done. -/
inductive TaskPhase where
  | idle : TaskPhase
  | running : TaskPhase
  | done : TaskPhase
  deriving DecidableEq, Repr

/-- Configuration of concurrent calls made through clones of one
`AsyncClient`: every task's phase, the lock holder, and the order in which
blocking calls started at the underlying client. -/
structure LockSys where
  phase : Nat → TaskPhase
  holder : Option Nat
  execLog : List Nat

/-- One step of the lock system: a task acquires the free lock and starts
its blocking call, or the lock holder finishes its call and releases. -/
inductive LockStep : LockSys → LockSys → Prop where
  | acquire (s : LockSys) (i : Nat) (hi : s.phase i = TaskPhase.idle)
      (hh : s.holder = none) :
      LockStep s ⟨Function.update s.phase i TaskPhase.running, some i,
        s.execLog ++ [i]⟩
  | release (s : LockSys) (i : Nat) (hi : s.phase i = TaskPhase.running)
      (hh : s.holder = some i) :
      LockStep s ⟨Function.update s.phase i TaskPhase.done, none, s.execLog⟩

/-- Reachability in the lock system. -/
inductive LockReaches : LockSys → LockSys → Prop where
  | refl (s : LockSys) : LockReaches s s
  | tail {a b c : LockSys} : LockReaches a b → LockStep b c → LockReaches a c

/-- The lock invariant: a task runs its blocking call exactly when it holds
the lock. -/
def lockInv (s : LockSys) : Prop :=
  ∀ i, s.phase i = TaskPhase.running ↔ s.holder = some i

/-! ### The producer/consumer system built from the mailbox

One producer thread runs `AsyncPostbox::post` on a list of events; one
consumer repeatedly polls `NextFuture`.  Both run under the mailbox mutex,
so each `postStep` and each `poll` is atomic; a system execution is an
arbitrary interleaving of these atomic steps. -/

/-- A configuration of the producer/consumer system: the mailbox slot, the
events the producer has not yet stored (head next), and the events the
consumer's polls have resolved to, in order. -/
structure MailboxSys (Ev : Type) where
  slot : Slot Ev
  toPost : List Ev
  consumed : List Ev
  deriving DecidableEq, Repr

/-- The events currently buffered in the slot (`[r]` when the slot holds
`Received(r)`, else `[]`). -/
def slotEvents {Ev : Type} : Slot Ev → List Ev
  | some (AsyncState.received r) => [r]
  | _ => []

/-- One atomic step of the producer/consumer system: the producer runs one
`postStep` on its next event (storing it, waiting on the condvar, or
returning because the mailbox closed), or the consumer runs one
`NextFuture.poll` with some waker. -/
inductive SysStep {Ev : Type} : MailboxSys Ev → MailboxSys Ev → Prop where
  | producerStore (c : MailboxSys Ev) (e : Ev) (rest : List Ev)
      (slot : Slot Ev) (effs : List Effect)
      (hp : c.toPost = e :: rest)
      (hs : AsyncPostbox.postStep c.slot e = PostStep.store slot effs) :
      SysStep c ⟨slot, rest, c.consumed⟩
  | producerWait (c : MailboxSys Ev) (e : Ev) (rest : List Ev)
      (hp : c.toPost = e :: rest)
      (hs : AsyncPostbox.postStep c.slot e = PostStep.wait) :
      SysStep c c
  | producerClosed (c : MailboxSys Ev) (e : Ev) (rest : List Ev)
      (hp : c.toPost = e :: rest)
      (hs : AsyncPostbox.postStep c.slot e = PostStep.closed) :
      SysStep c ⟨c.slot, rest, c.consumed⟩
  | consumerSome (c : MailboxSys Ev) (w : Waker) (r : Ev)
      (slot : Slot Ev) (effs : List Effect)
      (hs : NextFuture.poll c.slot w = (slot, effs, Poll.ready (some r))) :
      SysStep c ⟨slot, c.toPost, c.consumed ++ [r]⟩
  | consumerPending (c : MailboxSys Ev) (w : Waker)
      (slot : Slot Ev) (effs : List Effect)
      (hs : NextFuture.poll c.slot w = (slot, effs, Poll.pending)) :
      SysStep c ⟨slot, c.toPost, c.consumed⟩
  | consumerEos (c : MailboxSys Ev) (w : Waker)
      (slot : Slot Ev) (effs : List Effect)
      (hs : NextFuture.poll c.slot w = (slot, effs, Poll.ready none)) :
      SysStep c ⟨slot, c.toPost, c.consumed⟩

/-- Reachability: zero or more `SysStep`s. -/
inductive Reaches {Ev : Type} : MailboxSys Ev → MailboxSys Ev → Prop where
  | refl (c : MailboxSys Ev) : Reaches c c
  | tail {a b c : MailboxSys Ev} : Reaches a b → SysStep b c → Reaches a c

/-- The inductive invariant for the open system: the slot is open, and the
consumed events, the buffered event and the unposted events concatenate to
the original sequence. -/
def sysInv {Ev : Type} (evs : List Ev) (c : MailboxSys Ev) : Prop :=
  c.slot.isSome = true ∧ c.consumed ++ slotEvents c.slot ++ c.toPost = evs

/-- The initial configuration: a freshly created mailbox
(`AsyncState::new`, open) with the whole sequence still to post. -/
def sysInit {Ev : Type} (evs : List Ev) : MailboxSys Ev :=
  ⟨some AsyncState.new, evs, []⟩

theorem sysInv_step {Ev : Type} {evs : List Ev} {a b : MailboxSys Ev}
    (hinv : sysInv evs a) (hstep : SysStep a b) : sysInv evs b := by
  obtain ⟨hopen, hsum⟩ := hinv
  cases hstep with
  | producerStore e rest slot effs hp hs =>
    cases hc : a.slot with
    | none => rw [hc] at hs; simp [AsyncPostbox.postStep] at hs
    | some st =>
      cases st with
      | received r => rw [hc] at hs; simp [AsyncPostbox.postStep] at hs
      | nothing =>
        rw [hc] at hs
        simp only [AsyncPostbox.postStep, PostStep.store.injEq] at hs
        obtain ⟨hslot, -⟩ := hs
        refine ⟨by simp [← hslot], ?_⟩
        rw [hp, hc] at hsum
        simp only [slotEvents, ← hslot] at hsum ⊢
        simpa using hsum
      | waiting w =>
        rw [hc] at hs
        simp only [AsyncPostbox.postStep, PostStep.store.injEq] at hs
        obtain ⟨hslot, -⟩ := hs
        refine ⟨by simp [← hslot], ?_⟩
        rw [hp, hc] at hsum
        simp only [slotEvents, ← hslot] at hsum ⊢
        simpa using hsum
  | producerWait e rest hp hs => exact ⟨hopen, hsum⟩
  | producerClosed e rest hp hs =>
    cases hc : a.slot with
    | some st =>
      rw [hc] at hs
      cases st <;> simp [AsyncPostbox.postStep] at hs
    | none => rw [hc] at hopen; simp at hopen
  | consumerSome w r slot effs hs =>
    cases hc : a.slot with
    | none => rw [hc] at hs; simp [NextFuture.poll] at hs
    | some st =>
      cases st with
      | nothing => rw [hc] at hs; simp [NextFuture.poll] at hs
      | waiting w0 => rw [hc] at hs; simp [NextFuture.poll] at hs
      | received r0 =>
        rw [hc] at hs
        simp only [NextFuture.poll, Prod.mk.injEq, Poll.ready.injEq,
          Option.some.injEq] at hs
        obtain ⟨hslot, -, hr⟩ := hs
        refine ⟨by simp [← hslot], ?_⟩
        rw [hc] at hsum
        simp only [slotEvents, ← hslot, ← hr] at hsum ⊢
        simpa using hsum
  | consumerPending w slot effs hs =>
    cases hc : a.slot with
    | none => rw [hc] at hs; simp [NextFuture.poll] at hs
    | some st =>
      cases st with
      | received r0 => rw [hc] at hs; simp [NextFuture.poll] at hs
      | nothing =>
        rw [hc] at hs
        simp only [NextFuture.poll, Prod.mk.injEq] at hs
        obtain ⟨hslot, -⟩ := hs
        refine ⟨by simp [← hslot], ?_⟩
        rw [hc] at hsum
        simpa only [slotEvents, ← hslot] using hsum
      | waiting w0 =>
        rw [hc] at hs
        simp only [NextFuture.poll, Prod.mk.injEq] at hs
        obtain ⟨hslot, -⟩ := hs
        refine ⟨by simp [← hslot], ?_⟩
        rw [hc] at hsum
        simpa only [slotEvents, ← hslot] using hsum
  | consumerEos w slot effs hs =>
    cases hc : a.slot with
    | none => rw [hc] at hopen; simp at hopen
    | some st =>
      rw [hc] at hs
      cases st <;> simp [NextFuture.poll] at hs

theorem reaches_sysInv {Ev : Type} {evs : List Ev} {c : MailboxSys Ev}
    (h : Reaches (sysInit evs) c) : sysInv evs c := by
  induction h with
  | refl => exact ⟨rfl, by simp [sysInit, slotEvents, AsyncState.new]⟩
  | tail _ hs ih => exact sysInv_step ih hs

/-! ### Claim theorems for the mailbox -/

/-- C1: for any finite sequence of events handed to `AsyncPostbox::post` on
an open mailbox, once every event has been stored and the slot has been
drained, the single consumer's `Ready(Some(event))` poll results are exactly
the posted sequence, in order, with no loss and no duplication. -/
theorem mailbox_fifo_exact {Ev : Type} (evs : List Ev) (c : MailboxSys Ev)
    (h : Reaches (sysInit evs) c)
    (hposted : c.toPost = []) (hdrained : slotEvents c.slot = []) :
    c.consumed = evs := by
  obtain ⟨-, hsum⟩ := reaches_sysInv h
  rw [hposted, hdrained] at hsum
  simpa using hsum

theorem mailbox_fifo_exact_witness :
    (⟨some AsyncState.nothing, [], [1, 2]⟩ : MailboxSys Nat).consumed
      = [1, 2] := by
  refine mailbox_fifo_exact [1, 2] _ ?_ rfl rfl
  exact Reaches.tail
    (Reaches.tail
      (Reaches.tail
        (Reaches.tail (Reaches.refl _)
          (SysStep.producerStore _ 1 [2] (some (AsyncState.received 1)) []
            rfl rfl))
        (SysStep.consumerSome _ 0 1 (some AsyncState.nothing)
          [Effect.notifyAll] rfl))
      (SysStep.producerStore _ 2 [] (some (AsyncState.received 2)) [] rfl rfl))
    (SysStep.consumerSome _ 0 2 (some AsyncState.nothing)
      [Effect.notifyAll] rfl)

/-- C2: `AsyncPostbox::post` waits on the condvar exactly when the open slot
holds an unconsumed `Received` value, and whenever it does store, the prior
state was neither `Received` nor closed and the stored value is
`Received(event)` — so an event is stored only after the previous one has
been consumed, and no `Received` value is ever overwritten. -/
theorem post_backpressure {Ev : Type} (slot : Slot Ev) (e : Ev) :
    (AsyncPostbox.postStep slot e = PostStep.wait ↔
      ∃ r, slot = some (AsyncState.received r)) ∧
    (∀ slot2 effs, AsyncPostbox.postStep slot e = PostStep.store slot2 effs →
      (∀ r, slot ≠ some (AsyncState.received r)) ∧ slot ≠ none ∧
        slot2 = some (AsyncState.received e)) := by
  constructor
  · constructor
    · intro hw
      cases slot with
      | none => simp [AsyncPostbox.postStep] at hw
      | some st =>
        cases st with
        | received r => exact ⟨r, rfl⟩
        | nothing => simp [AsyncPostbox.postStep] at hw
        | waiting w => simp [AsyncPostbox.postStep] at hw
    · rintro ⟨r, rfl⟩
      rfl
  · intro slot2 effs hs
    cases slot with
    | none => simp [AsyncPostbox.postStep] at hs
    | some st =>
      cases st with
      | received r => simp [AsyncPostbox.postStep] at hs
      | nothing =>
        simp only [AsyncPostbox.postStep, PostStep.store.injEq] at hs
        exact ⟨fun r => by simp, by simp, hs.1.symm⟩
      | waiting w =>
        simp only [AsyncPostbox.postStep, PostStep.store.injEq] at hs
        exact ⟨fun r => by simp, by simp, hs.1.symm⟩

theorem post_backpressure_witness :
    AsyncPostbox.postStep (some (AsyncState.received 5) : Slot Nat) 7 =
      PostStep.wait :=
  (post_backpressure (some (AsyncState.received 5)) 7).1.mpr ⟨5, rfl⟩

/-- C3: on a closed mailbox (outer state `None`), `post` returns without
storing its event, and every poll — the first and every later one — resolves
immediately to `Ready(None)` and leaves the state closed. -/
theorem closed_mailbox_semantics {Ev : Type} (e : Ev) (w : Waker) :
    AsyncPostbox.postStep (none : Slot Ev) e = PostStep.closed ∧
    NextFuture.poll (none : Slot Ev) w = (none, [], Poll.ready none) ∧
    ∀ n : Nat, pollIterSlot (none : Slot Ev) w n = none ∧
      NextFuture.poll (pollIterSlot (none : Slot Ev) w n) w =
        (none, [], Poll.ready none) := by
  refine ⟨rfl, rfl, ?_⟩
  intro n
  induction n with
  | zero => exact ⟨rfl, rfl⟩
  | succ n ih =>
    obtain ⟨h1, -⟩ := ih
    constructor
    · simp [pollIterSlot, h1, NextFuture.poll]
    · simp [pollIterSlot, h1, NextFuture.poll]

/-- C4: when the slot holds `Waiting(w)`, `post` stores `Received(event)`
and wakes `w`; the re-poll that the wake triggers then finds the
`Received` value and resolves to `Ready(Some(event))`. -/
theorem post_wakes_registered_waker {Ev : Type} (w : Waker) (e : Ev)
    (w2 : Waker) :
    AsyncPostbox.postStep (some (AsyncState.waiting w) : Slot Ev) e =
      PostStep.store (some (AsyncState.received e)) [Effect.wake w] ∧
    NextFuture.poll (some (AsyncState.received e) : Slot Ev) w2 =
      (some AsyncState.nothing, [Effect.notifyAll], Poll.ready (some e)) :=
  ⟨rfl, rfl⟩

/-- C5, counterexample: posting on an open `Empty` slot stores the event but
performs no `Condvar::notify_all` — `post` never notifies the condvar,
contrary to the claim that it does so in all cases. -/
theorem post_no_condvar_notify_cex :
    AsyncPostbox.postStep (some AsyncState.nothing : Slot Nat) 0 =
      PostStep.store (some (AsyncState.received 0)) [] ∧
    Effect.notifyAll ∉ postStepEffects (some AsyncState.nothing : Slot Nat) 0 :=
  ⟨rfl, by decide⟩

/-- C5, amended: `post` never notifies the condvar; after storing
`Received(event)` its only effect is waking the previously registered waker
when the prior state was `Waiting` (and no effect when it was `Empty`).
The condvar is notified by the consumer's poll instead, on every poll of an
open mailbox. -/
theorem post_effects_characterization {Ev : Type} (slot : Slot Ev) (e : Ev) :
    Effect.notifyAll ∉ postStepEffects slot e ∧
    (∀ w, slot = some (AsyncState.waiting w) →
      postStepEffects slot e = [Effect.wake w]) ∧
    (slot = some AsyncState.nothing → postStepEffects slot e = []) ∧
    (∀ w, Effect.notifyAll ∈ (NextFuture.poll slot w).2.1 ↔ slot ≠ none) := by
  refine ⟨?_, ?_, ?_, ?_⟩
  · cases slot with
    | none => simp [postStepEffects, AsyncPostbox.postStep]
    | some st =>
      cases st <;> simp [postStepEffects, AsyncPostbox.postStep]
  · rintro w rfl
    rfl
  · rintro rfl
    rfl
  · intro w
    cases slot with
    | none => simp [NextFuture.poll]
    | some st =>
      cases st <;> simp [NextFuture.poll]

theorem post_effects_characterization_witness :
    postStepEffects (some (AsyncState.waiting 3) : Slot Nat) 9 =
      [Effect.wake 3] :=
  (post_effects_characterization (some (AsyncState.waiting 3)) 9).2.1 3 rfl

/-- C6: a poll on an open mailbox consumes a `Received` value (slot becomes
`Empty`, condvar notified, result `Ready(Some(event))`), and in every other
inner state stores `Waiting` with the current poll's waker — replacing any
previously registered one — notifies the condvar, and returns `Pending`. -/
theorem next_poll_open_semantics {Ev : Type} (st : AsyncState Ev) (w : Waker) :
    (∀ r, st = AsyncState.received r →
      NextFuture.poll (some st) w =
        (some AsyncState.nothing, [Effect.notifyAll], Poll.ready (some r))) ∧
    ((st = AsyncState.nothing ∨ ∃ w0, st = AsyncState.waiting w0) →
      NextFuture.poll (some st) w =
        (some (AsyncState.waiting w), [Effect.notifyAll], Poll.pending)) := by
  constructor
  · rintro r rfl
    rfl
  · rintro (rfl | ⟨w0, rfl⟩) <;> rfl

theorem next_poll_open_semantics_witness :
    NextFuture.poll (some (AsyncState.waiting 5) : Slot Nat) 8 =
      (some (AsyncState.waiting 8), [Effect.notifyAll], Poll.pending) :=
  (next_poll_open_semantics (AsyncState.waiting 5) 8).2 (Or.inr ⟨5, rfl⟩)

/-- C10: a freshly constructed mailbox state (`AsyncState::new`, also the
`Default`) is the `None`/`Empty` variant, so the first poll on a newly
created, still-open connection registers the poll's waker and returns
`Pending` rather than an event or the end-of-stream sentinel. -/
theorem fresh_state_first_poll {Ev : Type} (w : Waker) :
    (AsyncState.new : AsyncState Ev) = AsyncState.nothing ∧
    (AsyncState.defaultState : AsyncState Ev) = AsyncState.nothing ∧
    NextFuture.poll (some (AsyncState.new : AsyncState Ev)) w =
      (some (AsyncState.waiting w), [Effect.notifyAll], Poll.pending) :=
  ⟨rfl, rfl, rfl⟩

/-! ### Claim theorems for the client side -/

/-- C7: each of `publish`, `subscribe` and `unsubscribe` on the unblocking
adapter captures the owned conversions of its borrowed inputs, runs exactly
one invocation on the underlying synchronous client with arguments equal to
those inputs, and its future resolves to exactly the result the synchronous
client produced — the adapter adds no error of its own and leaves the
client itself untouched. -/
theorem async_client_calls_exact {E : Type} (s : SharedClient E)
    (topic : Cow String) (qos : QoS) (retain : Bool)
    (payload : Cow (List Nat)) (topic2 : Cow String) :
    (AsyncClient.publish s topic qos retain payload).1.log =
      s.log ++ [ClientCall.publishCall topic.intoOwned qos retain
        payload.intoOwned] ∧
    (AsyncClient.publish s topic qos retain payload).2 =
      s.client.respond (ClientCall.publishCall topic.intoOwned qos retain
        payload.intoOwned) ∧
    (AsyncClient.publish s topic qos retain payload).1.client = s.client ∧
    (AsyncClient.subscribe s topic2 qos).1.log =
      s.log ++ [ClientCall.subscribeCall topic2.intoOwned qos] ∧
    (AsyncClient.subscribe s topic2 qos).2 =
      s.client.respond (ClientCall.subscribeCall topic2.intoOwned qos) ∧
    (AsyncClient.unsubscribe s topic2).1.log =
      s.log ++ [ClientCall.unsubscribeCall topic2.intoOwned] ∧
    (AsyncClient.unsubscribe s topic2).2 =
      s.client.respond (ClientCall.unsubscribeCall topic2.intoOwned) :=
  ⟨rfl, rfl, rfl, rfl, rfl, rfl, rfl⟩

/-- C8: an enqueue-based publish wraps the synchronously-computed `enqueue`
result; polling the returned `EnqueueFuture` resolves already on the first
poll to `Ready` of that result (an `Err` carried through `clone`), and
leaves the stored result unchanged, so every subsequent poll returns the
same `Ready` result. -/
theorem enqueue_publish_immediate {E : Type} (client : EnqueueClient E)
    (cl : E → E) (hcl : ∀ x, cl x = x) (topic : Cow String) (qos : QoS)
    (retain : Bool) (payload : Cow (List Nat)) :
    EnqueueFuture.poll cl (Enqueue.publish client topic qos retain payload) =
      (Enqueue.publish client topic qos retain payload,
        Poll.ready (client.enqueue topic qos retain payload)) := by
  unfold Enqueue.publish EnqueueFuture.poll
  cases client.enqueue topic qos retain payload with
  | ok id => rfl
  | err e => simp [hcl]

theorem enqueue_publish_immediate_witness :
    EnqueueFuture.poll (fun x => x)
      (Enqueue.publish (⟨fun _ _ _ _ => RustResult.err 4⟩ : EnqueueClient Nat)
        (Cow.borrowed "t") QoS.atLeastOnce true (Cow.owned [1])) =
      (Enqueue.publish (⟨fun _ _ _ _ => RustResult.err 4⟩ : EnqueueClient Nat)
        (Cow.borrowed "t") QoS.atLeastOnce true (Cow.owned [1]),
        Poll.ready (RustResult.err 4)) :=
  enqueue_publish_immediate ⟨fun _ _ _ _ => RustResult.err 4⟩ (fun x => x)
    (fun _ => rfl) (Cow.borrowed "t") QoS.atLeastOnce true (Cow.owned [1])

theorem lockInv_step {a b : LockSys} (hinv : lockInv a) (hstep : LockStep a b) :
    lockInv b := by
  cases hstep with
  | acquire i hi hh =>
    intro j
    by_cases hj : j = i
    · subst hj
      simp [Function.update_same]
    · show Function.update a.phase i TaskPhase.running j = TaskPhase.running ↔
        some i = some j
      rw [Function.update_noteq hj]
      simp only [Option.some.injEq]
      constructor
      · intro hr
        exact absurd (hh ▸ (hinv j).mp hr) (by simp)
      · intro hji
        exact absurd hji (Ne.symm hj)
  | release i hi hh =>
    intro j
    by_cases hj : j = i
    · subst hj
      simp [Function.update_same]
    · show Function.update a.phase i TaskPhase.done j = TaskPhase.running ↔
        none = some j
      rw [Function.update_noteq hj]
      constructor
      · intro hr
        have := (hinv j).mp hr
        rw [hh] at this
        exact absurd (Option.some.inj this) (Ne.symm hj)
      · intro hn
        exact absurd hn (by simp)

theorem lockInv_reaches {a b : LockSys} (hinv : lockInv a)
    (h : LockReaches a b) : lockInv b := by
  induction h with
  | refl => exact hinv
  | tail _ hs ih => exact lockInv_step ih hs

/-- C9: clones of an `AsyncClient` share the same `Arc`'d mutex-guarded
client instance, and in the lock system that serializes the scheduled
closures, from any configuration where no task holds the lock, at most one
task is ever running its blocking call on the underlying client at a time —
concurrent calls through the clones never interleave. -/
theorem serialized_client_calls (c : AsyncClientHandle) (init cfg : LockSys)
    (hidle : ∀ i, init.phase i ≠ TaskPhase.running)
    (hfree : init.holder = none) (h : LockReaches init cfg) :
    (AsyncClientHandle.clone c).shared = c.shared ∧
    ∀ i j, cfg.phase i = TaskPhase.running →
      cfg.phase j = TaskPhase.running → i = j := by
  have hinv : lockInv init := by
    intro i
    constructor
    · intro hr
      exact absurd hr (hidle i)
    · intro hs
      rw [hfree] at hs
      exact absurd hs (by simp)
  have hcfg := lockInv_reaches hinv h
  refine ⟨rfl, ?_⟩
  intro i j hi hj
  have h1 := (hcfg i).mp hi
  have h2 := (hcfg j).mp hj
  rw [h1] at h2
  exact Option.some.inj h2

theorem serialized_client_calls_witness :
    (AsyncClientHandle.clone ⟨1, 2⟩).shared =
      (⟨1, 2⟩ : AsyncClientHandle).shared ∧
    ∀ i j,
      (⟨Function.update (fun _ => TaskPhase.idle) 0 TaskPhase.running,
        some 0, [0]⟩ : LockSys).phase i = TaskPhase.running →
      (⟨Function.update (fun _ => TaskPhase.idle) 0 TaskPhase.running,
        some 0, [0]⟩ : LockSys).phase j = TaskPhase.running → i = j :=
  serialized_client_calls ⟨1, 2⟩ ⟨fun _ => TaskPhase.idle, none, []⟩ _
    (fun _ h => by cases h) rfl
    (LockReaches.tail (LockReaches.refl _) (LockStep.acquire _ 0 rfl rfl))

end Asyncify
